import Mathlib

/-!
Shallow embedding of the terminal control layer of the kilo editor
(src/main.rs and src/os.rs), together with theorems checking the
natural-language specification against it.

Conventions:
* Bytes are `Nat` values below 256 (ASCII codes written as decimal literals:
  27 = ESC, 91 = left bracket, 126 = tilde, 48..57 = digits 0..9).
* The keyboard byte source is a `List (Option Nat)`: each element is the
  outcome of one `read` attempt, `some b` for a byte, `none` for a timeout
  (the raw-mode VMIN=0/VTIME=1 read returning no data).  An exhausted list
  means the interaction trace ran out, modelled as an undetermined result
  `none` of the decoder.
-/

namespace Kilo

/-- The `Key` enum of src/main.rs. -/
inductive Key where
  | Char : Nat → Key
  | Escape : Key
  | Left : Key
  | Right : Key
  | Up : Key
  | Down : Key
  | PageUp : Key
  | PageDown : Key
  | Home : Key
  | End : Key
  | Delete : Key
  deriving DecidableEq, Repr

/-- The digit arm of `Terminal::read_key` (src/main.rs, lines 345-356): after
ESC, the bracket and one digit byte `b3`, the source reads one more byte; if
it is 126 (tilde) the single digit is mapped (49 and 55 to Home, 51 to
Delete, 52 and 56 to End, 53 to PageUp, 54 to PageDown), and every other
case falls through to `return Ok(Key::Escape)`.  Counts include the four
`read` attempts consumed so far. -/
def escDigit (b3 : Nat) (s3 : List (Option Nat)) : Option (Key × Nat) :=
  match s3 with
  | [] => none
  | none :: _ => some (Key.Escape, 4)
  | some b4 :: _ =>
    if b4 = 126 then
      if b3 = 49 ∨ b3 = 55 then some (Key.Home, 4)
      else if b3 = 51 then some (Key.Delete, 4)
      else if b3 = 52 ∨ b3 = 56 then some (Key.End, 4)
      else if b3 = 53 then some (Key.PageUp, 4)
      else if b3 = 54 then some (Key.PageDown, 4)
      else some (Key.Escape, 4)
    else some (Key.Escape, 4)

/-- The bracket arm of `Terminal::read_key` (src/main.rs, lines 336-360):
read a third byte and dispatch on it; 65..68 are the arrows, 72 Home, 70 End,
a digit goes to `escDigit`, anything else falls through to the bare Escape
return.  A timeout on the third read also falls through to Escape. -/
def escBracket (s2 : List (Option Nat)) : Option (Key × Nat) :=
  match s2 with
  | [] => none
  | none :: _ => some (Key.Escape, 3)
  | some b3 :: s3 =>
    if b3 = 65 then some (Key.Up, 3)
    else if b3 = 66 then some (Key.Down, 3)
    else if b3 = 67 then some (Key.Right, 3)
    else if b3 = 68 then some (Key.Left, 3)
    else if b3 = 72 then some (Key.Home, 3)
    else if b3 = 70 then some (Key.End, 3)
    else if 48 ≤ b3 ∧ b3 ≤ 57 then escDigit b3 s3
    else some (Key.Escape, 3)

/-- The letter-O arm of `Terminal::read_key` (src/main.rs, lines 361-369):
read a third byte; 72 is Home, 70 is End, anything else (or a timeout) falls
through to the bare Escape return. -/
def escO (s2 : List (Option Nat)) : Option (Key × Nat) :=
  match s2 with
  | [] => none
  | none :: _ => some (Key.Escape, 3)
  | some b3 :: _ =>
    if b3 = 72 then some (Key.Home, 3)
    else if b3 = 70 then some (Key.End, 3)
    else some (Key.Escape, 3)

/-- Embedding of the part of `Terminal::read_key` (src/main.rs, lines 328-375)
that runs after the first `read` attempt returned a byte `b`.  The result is
`some (key, n)` where `n` counts every `read` attempt consumed, the first one
included; `none` means the trace ended before the decoder reached a `return`.
A non-escape first byte is returned directly as a character event; after an
escape byte, a timeout or an unrecognized second byte yields the bare Escape
event, and 91 (left bracket) and 79 (letter O) dispatch to their arms. -/
def readKeyAfter (b : Nat) (s : List (Option Nat)) : Option (Key × Nat) :=
  if b ≠ 27 then some (Key.Char b, 1)
  else
    match s with
    | [] => none
    | none :: _ => some (Key.Escape, 2)
    | some b2 :: s2 =>
      if b2 = 91 then escBracket s2
      else if b2 = 79 then escO s2
      else some (Key.Escape, 2)

/-- Embedding of `Terminal::read_key` (src/main.rs, lines 319-376).  The outer
`loop` polls until a byte arrives: a timeout (`none`) at the top of the loop
consumes one read attempt and polls again. -/
def readKey : List (Option Nat) → Option (Key × Nat)
  | [] => none
  | none :: s => (readKey s).map (fun r => (r.1, r.2 + 1))
  | some b :: s => readKeyAfter b s

/-- Outcomes of the cursor-position probe of src/main.rs: a well-formed
failure (`io::Error` built by `bad_cpr`, the ProtocolError of the spec) or the
panic hidden in the slice expression `buf[mid + 1..read - 1]` when the slice
bounds are out of order. -/
inductive CprError where
  | protocol : CprError
  | panic : CprError
  deriving DecidableEq, Repr

/-- Embedding of `stdin.take(limit).read_until` stopping at the byte R
(src/main.rs, line 253): collect bytes from the response stream until and
including the first 82 (the letter R), stopping early after `limit` bytes or
at the end of the stream. -/
def take_read_until (limit : Nat) (input : List Nat) : List Nat :=
  match limit, input with
  | 0, _ => []
  | _, [] => []
  | l + 1, b :: rest => if b = 82 then [b] else b :: take_read_until l rest

/-- Embedding of Rust `str::parse::<u16>` applied to a slice of ASCII bytes:
an optional leading plus sign, then at least one decimal digit, value at most
65535; anything else is a parse error (`none`). -/
def parseU16 (s : List Nat) : Option Nat :=
  let t := match s with
    | 43 :: rest => rest
    | _ => s
  if t ≠ [] ∧ t.all (fun b => decide (48 ≤ b ∧ b ≤ 57)) then
    let v := t.foldl (fun acc b => acc * 10 + (b - 48)) 0
    if v ≤ 65535 then some v else none
  else none

/-- Embedding of `vt100::get_cursor_position` of src/main.rs (lines 239-276),
the buffer-based parser of the cursor position report.  `input` is the byte
stream available on stdin after the query was written.  The source reads up to
14 bytes up to the letter R, checks the length bounds and the two-byte
escape-bracket header, locates the semicolon, and parses both numeric fields
with `str::parse::<u16>`; the byte before the semicolon slice never gets
compared against R.  `CprError.panic` models the slice panic reachable when
the response ends right after the semicolon. -/
def main_get_cursor_position (input : List Nat) : Except CprError (Nat × Nat) :=
  let buf := take_read_until 14 input
  let read := buf.length
  if read < 5 ∨ 13 < read then Except.error CprError.protocol
  else if ¬ (buf.get? 0 = some 27 ∧ buf.get? 1 = some 91) then
    Except.error CprError.protocol
  else
    match buf.findIdx? (fun b => b == 59) with
    | none => Except.error CprError.protocol
    | some mid =>
      if mid < 2 ∨ read - 1 < mid + 1 then Except.error CprError.panic
      else
        match parseU16 ((buf.drop 2).take (mid - 2)) with
        | none => Except.error CprError.protocol
        | some rows =>
          match parseU16 ((buf.drop (mid + 1)).take (read - 1 - (mid + 1))) with
          | none => Except.error CprError.protocol
          | some cols => Except.ok (rows, cols)

/-- One field of the streaming parser of src/os.rs (lines 159-171): read bytes
until the stop byte, folding every other byte into the accumulator as
`acc * 10 + (b - 48)` with u8/u16 wrap-around semantics (the release-build
behaviour of the unchecked arithmetic in the source); no digit check is done.
Running out of bytes is the `read_exact` I/O error. -/
def os_parse_field (stop : Nat) : Nat → List Nat → Except Unit (Nat × List Nat)
  | _, [] => Except.error ()
  | acc, b :: rest =>
    if b = stop then Except.ok (acc, rest)
    else os_parse_field stop ((acc * 10 + (b + 208) % 256) % 65536) rest

/-- Embedding of `vt100::get_cursor_position` of src/os.rs (lines 150-173),
the streaming parser: `read_match` on the escape byte and the bracket, then
accumulate bytes until the semicolon into `rows` and until the letter R into
`cols`, with no validation that the field bytes are digits. -/
def os_get_cursor_position (input : List Nat) : Except Unit (Nat × Nat) :=
  match input with
  | 27 :: 91 :: rest =>
    match os_parse_field 59 0 rest with
    | Except.error _ => Except.error ()
    | Except.ok (rows, rest2) =>
      match os_parse_field 82 0 rest2 with
      | Except.error _ => Except.error ()
      | Except.ok (cols, _) => Except.ok (rows, cols)
  | _ => Except.error ()

/-- Embedding of `Terminal::get_window_size` (src/main.rs, lines 310-317).
`ioctlResult` is `none` when the TIOCGWINSZ ioctl returns -1 and
`some (rows, cols)` when it succeeds with the given winsize fields; `probe` is
the outcome of the cursor-position fallback.  The source returns the ioctl
values unconditionally on success and falls back only on failure. -/
def get_window_size (ioctlResult : Option (Nat × Nat))
    (probe : Except CprError (Nat × Nat)) : Except CprError (Nat × Nat) :=
  match ioctlResult with
  | none => probe
  | some ws => Except.ok ws

/-- The termios fields touched by `Terminal::new_raw_mode`
(src/main.rs, lines 287-308). -/
structure Termios where
  c_iflag : Nat
  c_oflag : Nat
  c_cflag : Nat
  c_lflag : Nat
  c_cc_vmin : Nat
  c_cc_vtime : Nat
  deriving DecidableEq, Repr

/-- Bitwise AND NOT for flag words: clears from `x` the bits of `m`
(the common bits of `x` and `m` are a sub-word of `x`, so plain subtraction
removes exactly them). -/
def clearBits (x m : Nat) : Nat := x - x.land m

/-- The raw attribute set derived from the captured snapshot in
`Terminal::new_raw_mode`: clear BRKINT, ICRNL, INPCK, ISTRIP, IXON on input,
OPOST on output, ECHO, ICANON, IEXTEN, ISIG on local flags, set CS8, VMIN 0
and VTIME 1 (Linux flag values). -/
def mkRaw (orig : Termios) : Termios :=
  { c_iflag := clearBits orig.c_iflag (2 ||| 256 ||| 16 ||| 32 ||| 1024)
    c_oflag := clearBits orig.c_oflag 1
    c_cflag := orig.c_cflag ||| 48
    c_lflag := clearBits orig.c_lflag (8 ||| 2 ||| 32768 ||| 1)
    c_cc_vmin := 0
    c_cc_vtime := 1 }

/-- The `Terminal` struct of src/main.rs restricted to its pure state: the
attribute snapshot captured at construction and the compositor frame buffer.
The stdin/stdout handles carry no state relevant to the claims. -/
structure Terminal where
  orig : Termios
  buf : String
  deriving DecidableEq, Repr

/-- `Terminal::new_raw_mode` (src/main.rs, lines 287-308): capture the
snapshot, derive the raw attribute set and apply it.  Returns the constructed
terminal together with the attribute value passed to `tcsetattr`. -/
def Terminal.new_raw_mode (orig : Termios) : Terminal × Termios :=
  ({ orig := orig, buf := "" }, mkRaw orig)

/-- `Terminal::begin` (src/main.rs, line 378): reset the frame buffer. -/
def Terminal.begin (t : Terminal) : Terminal := { t with buf := "" }

/-- `Terminal::hide_cursor` (src/main.rs, line 396). -/
def Terminal.hide_cursor (t : Terminal) : Terminal :=
  { t with buf := t.buf ++ "\x1b[?25l" }

/-- `Terminal::show_cursor` (src/main.rs, line 400). -/
def Terminal.show_cursor (t : Terminal) : Terminal :=
  { t with buf := t.buf ++ "\x1b[?25h" }

/-- `Terminal::move_cursor` (src/main.rs, line 404), the home sequence. -/
def Terminal.move_cursor (t : Terminal) : Terminal :=
  { t with buf := t.buf ++ "\x1b[H" }

/-- `Terminal::move_cursor_at` (src/main.rs, line 408): the row-column
positioning sequence formatted from the two numbers. -/
def Terminal.move_cursor_at (t : Terminal) (row col : Nat) : Terminal :=
  { t with buf := t.buf ++ ("\x1b[" ++ toString row ++ ";" ++ toString col ++ "H") }

/-- `Terminal::erase_in_display` (src/main.rs, line 388). -/
def Terminal.erase_in_display (t : Terminal) : Terminal :=
  { t with buf := t.buf ++ "\x1b[2J" }

/-- `Terminal::erase_in_line` (src/main.rs, line 392). -/
def Terminal.erase_in_line (t : Terminal) : Terminal :=
  { t with buf := t.buf ++ "\x1b[K" }

/-- `Terminal::push` (src/main.rs, line 412). -/
def Terminal.push (t : Terminal) (c : Char) : Terminal :=
  { t with buf := t.buf.push c }

/-- `Terminal::push_str` (src/main.rs, line 416). -/
def Terminal.push_str (t : Terminal) (s : String) : Terminal :=
  { t with buf := t.buf ++ s }

/-- `Terminal::end` (src/main.rs, lines 382-386): one `write_all` of the
whole frame buffer to the sink, modelled as the list of write payloads the
sink has received. -/
def Terminal.endFrame (t : Terminal) (sink : List String) : List String :=
  sink ++ [t.buf]

/-- The `Drop` impl of `Terminal` (src/main.rs, lines 421-425): the attribute
value written back by `tcsetattr` at teardown. -/
def Terminal.dropRestore (t : Terminal) : Termios := t.orig

/-- The operations a session can perform on the terminal state between
construction and teardown (the pure state transitions of src/main.rs). -/
inductive TermOp where
  | beginOp : TermOp
  | hideCursor : TermOp
  | showCursor : TermOp
  | moveCursorHome : TermOp
  | moveCursorAt : Nat → Nat → TermOp
  | eraseInDisplay : TermOp
  | eraseInLine : TermOp
  | pushChar : Char → TermOp
  | pushStr : String → TermOp
  deriving DecidableEq, Repr

/-- Interpretation of one session operation as the corresponding state
transition of the embedded `Terminal`. -/
def applyOp : TermOp → Terminal → Terminal
  | TermOp.beginOp, t => t.begin
  | TermOp.hideCursor, t => t.hide_cursor
  | TermOp.showCursor, t => t.show_cursor
  | TermOp.moveCursorHome, t => t.move_cursor
  | TermOp.moveCursorAt r c, t => t.move_cursor_at r c
  | TermOp.eraseInDisplay, t => t.erase_in_display
  | TermOp.eraseInLine, t => t.erase_in_line
  | TermOp.pushChar c, t => t.push c
  | TermOp.pushStr s, t => t.push_str s

/-- A whole session: apply a list of operations in order. -/
def applyOps (ops : List TermOp) (t : Terminal) : Terminal :=
  ops.foldl (fun t op => applyOp op t) t

/-- The bytes each buffer-appending operation contributes to the frame
buffer (`TermOp.beginOp` is not an appending operation; it is given the empty
payload here and excluded by hypothesis where this matters). -/
def payload : TermOp → String
  | TermOp.beginOp => ""
  | TermOp.hideCursor => "\x1b[?25l"
  | TermOp.showCursor => "\x1b[?25h"
  | TermOp.moveCursorHome => "\x1b[H"
  | TermOp.moveCursorAt r c => "\x1b[" ++ toString r ++ ";" ++ toString c ++ "H"
  | TermOp.eraseInDisplay => "\x1b[2J"
  | TermOp.eraseInLine => "\x1b[K"
  | TermOp.pushChar c => String.singleton c
  | TermOp.pushStr s => s

/-- Embedding of `write` of src/os.rs (lines 77-83): one call to the OS write
primitive.  `res` models the value the OS call returns: -1 for failure,
otherwise the number of bytes actually transferred (possibly fewer than the
buffer holds).  The source maps every non-(-1) result to success and never
loops. -/
def unixWrite (buf : List Nat) (res : Int) : Except Unit Unit :=
  if res = -1 then Except.error () else Except.ok ()

/-- The bytes actually delivered to the device by one OS write call that
returned `res` on the buffer `buf`. -/
def writtenBytes (buf : List Nat) (res : Int) : List Nat :=
  if res < 0 then [] else buf.take res.toNat

/-- Concatenation of the buffer contributions of a list of operations. -/
def payloads : List TermOp → String
  | [] => ""
  | op :: ops => payload op ++ payloads ops

theorem empty_append (s : String) : "" ++ s = s := by
  cases s
  rfl

theorem push_eq_append (s : String) (c : Char) : s.push c = s ++ String.singleton c := by
  cases s
  rfl

theorem applyOp_orig (op : TermOp) (t : Terminal) : (applyOp op t).orig = t.orig := by
  cases op <;> rfl

theorem applyOps_orig (ops : List TermOp) (t : Terminal) :
    (applyOps ops t).orig = t.orig := by
  induction ops generalizing t with
  | nil => rfl
  | cons op ops ih => simpa [applyOps, List.foldl_cons, applyOp_orig] using ih (applyOp op t)

theorem applyOp_buf (op : TermOp) (t : Terminal) (h : op ≠ TermOp.beginOp) :
    (applyOp op t).buf = t.buf ++ payload op := by
  cases op with
  | beginOp => exact absurd rfl h
  | pushChar c => exact push_eq_append t.buf c
  | _ => rfl

theorem applyOps_buf (ops : List TermOp) (t : Terminal)
    (h : ∀ op ∈ ops, op ≠ TermOp.beginOp) :
    (applyOps ops t).buf = t.buf ++ payloads ops := by
  induction ops generalizing t with
  | nil => exact (String.append_empty t.buf).symm
  | cons op ops ih =>
    have hop : op ≠ TermOp.beginOp := h op (by simp)
    have hops : ∀ o ∈ ops, o ≠ TermOp.beginOp := fun o ho => h o (by simp [ho])
    calc (applyOps (op :: ops) t).buf
        = (applyOps ops (applyOp op t)).buf := rfl
      _ = (applyOp op t).buf ++ payloads ops := ih (applyOp op t) hops
      _ = (t.buf ++ payload op) ++ payloads ops := by rw [applyOp_buf op t hop]
      _ = t.buf ++ (payload op ++ payloads ops) := String.append_assoc ..
      _ = t.buf ++ payloads (op :: ops) := rfl


theorem escDigit_pos (b3 : Nat) (s3 : List (Option Nat)) (k : Key) (n : Nat)
    (h : escDigit b3 s3 = some (k, n)) : 1 ≤ n := by
  unfold escDigit at h
  repeat' split at h
  all_goals first
    | exact Option.noConfusion h
    | (injection h with h2; injection h2 with hk hn; omega)

theorem escBracket_pos (s2 : List (Option Nat)) (k : Key) (n : Nat)
    (h : escBracket s2 = some (k, n)) : 1 ≤ n := by
  unfold escBracket at h
  repeat' split at h
  all_goals first
    | exact Option.noConfusion h
    | exact escDigit_pos _ _ _ _ h
    | (injection h with h2; injection h2 with hk hn; omega)

theorem escO_pos (s2 : List (Option Nat)) (k : Key) (n : Nat)
    (h : escO s2 = some (k, n)) : 1 ≤ n := by
  unfold escO at h
  repeat' split at h
  all_goals first
    | exact Option.noConfusion h
    | (injection h with h2; injection h2 with hk hn; omega)

theorem readKeyAfter_pos (b : Nat) (s : List (Option Nat)) (k : Key) (n : Nat)
    (h : readKeyAfter b s = some (k, n)) : 1 ≤ n := by
  unfold readKeyAfter at h
  repeat' split at h
  all_goals first
    | exact Option.noConfusion h
    | exact escBracket_pos _ _ _ h
    | exact escO_pos _ _ _ h
    | (injection h with h2; injection h2 with hk hn; omega)

theorem readKey_some_consumes (s : List (Option Nat)) (k : Key) (m : Nat)
    (h : readKey s = some (k, m)) : ∃ i, i < m ∧ ∃ c, s.get? i = some (some c) := by
  induction s generalizing k m with
  | nil => simp [readKey] at h
  | cons x s ih =>
    cases x with
    | none =>
      rw [readKey, Option.map_eq_some'] at h
      obtain ⟨⟨k0, m0⟩, hr, heq⟩ := h
      have hm : m = m0 + 1 := (congrArg Prod.snd heq).symm
      obtain ⟨i, hi, c, hc⟩ := ih k0 m0 hr
      exact ⟨i + 1, by omega, c, by simpa using hc⟩
    | some b =>
      have hn : 1 ≤ m := readKeyAfter_pos b s k m h
      exact ⟨0, hn, b, rfl⟩

theorem escDigit_isSome (b3 : Nat) (x : Option Nat) (s : List (Option Nat)) :
    (escDigit b3 (x :: s)).isSome = true := by
  unfold escDigit
  repeat' split
  all_goals first
    | rfl
    | simp_all

theorem escBracket_isSome (x1 x2 : Option Nat) (s : List (Option Nat)) :
    (escBracket (x1 :: x2 :: s)).isSome = true := by
  cases x1 with
  | none => rfl
  | some b3 =>
    simp only [escBracket]
    repeat' split
    all_goals first
      | rfl
      | exact escDigit_isSome _ _ _

theorem escO_isSome (x1 : Option Nat) (s : List (Option Nat)) :
    (escO (x1 :: s)).isSome = true := by
  unfold escO
  repeat' split
  all_goals first
    | rfl
    | simp_all

theorem readKeyAfter_isSome (b : Nat) (x1 x2 x3 : Option Nat)
    (s : List (Option Nat)) :
    (readKeyAfter b (x1 :: x2 :: x3 :: s)).isSome = true := by
  by_cases hb : b = 27
  · subst hb
    cases x1 with
    | none => rfl
    | some b2 =>
      simp only [readKeyAfter]
      repeat' split
      all_goals first
        | rfl
        | exact escBracket_isSome _ _ _
        | exact escO_isSome _ _
  · simp [readKeyAfter, hb]

theorem readKey_isSome_append (p : List (Option Nat)) (b : Nat)
    (rest : List (Option Nat)) (hp : ∀ x ∈ p, x = none) (hlen : 3 ≤ rest.length) :
    (readKey (p ++ some b :: rest)).isSome = true := by
  induction p with
  | nil =>
    obtain ⟨x1, rest1, rfl⟩ : ∃ y ys, rest = y :: ys := by
      cases rest with
      | nil => simp at hlen
      | cons y ys => exact ⟨y, ys, rfl⟩
    obtain ⟨x2, rest2, rfl⟩ : ∃ y ys, rest1 = y :: ys := by
      cases rest1 with
      | nil => simp at hlen
      | cons y ys => exact ⟨y, ys, rfl⟩
    obtain ⟨x3, rest3, rfl⟩ : ∃ y ys, rest2 = y :: ys := by
      cases rest2 with
      | nil => simp at hlen
      | cons y ys => exact ⟨y, ys, rfl⟩
    exact readKeyAfter_isSome b x1 x2 x3 rest3
  | cons x p ih =>
    have hx : x = none := hp x (by simp)
    subst hx
    have hrec := ih (fun y hy => hp y (by simp [hy]))
    simpa [readKey, Option.isSome_map] using hrec

/-- Claim C6: for each of the three-byte inputs ESC-bracket-A, B, C, D the
decoder returns exactly one Up, Down, Right, Left event respectively,
consuming exactly 3 read attempts, and ESC-bracket-H returns Home,
ESC-bracket-F returns End, whatever bytes follow. -/
theorem claim_C6_arrow_keys :
    ∀ rest : List (Option Nat),
      readKey (some 27 :: some 91 :: some 65 :: rest) = some (Key.Up, 3) ∧
      readKey (some 27 :: some 91 :: some 66 :: rest) = some (Key.Down, 3) ∧
      readKey (some 27 :: some 91 :: some 67 :: rest) = some (Key.Right, 3) ∧
      readKey (some 27 :: some 91 :: some 68 :: rest) = some (Key.Left, 3) ∧
      readKey (some 27 :: some 91 :: some 72 :: rest) = some (Key.Home, 3) ∧
      readKey (some 27 :: some 91 :: some 70 :: rest) = some (Key.End, 3) := by
  intro rest
  exact ⟨rfl, rfl, rfl, rfl, rfl, rfl⟩

/-- Claim C7: after the escape byte, either a read timeout or a second byte
that is neither the left bracket (91) nor the letter O (79) yields exactly
one bare Escape event, with two read attempts consumed. -/
theorem claim_C7_bare_escape :
    ∀ (rest : List (Option Nat)) (b2 : Nat),
      readKey (some 27 :: none :: rest) = some (Key.Escape, 2) ∧
      (b2 ≠ 91 → b2 ≠ 79 → readKey (some 27 :: some b2 :: rest) = some (Key.Escape, 2)) := by
  intro rest b2
  refine ⟨rfl, fun h1 h2 => ?_⟩
  simp [readKey, readKeyAfter, h1, h2]

/-- Witness for C7 at the concrete input ESC followed by the letter a. -/
theorem claim_C7_bare_escape_witness :
    readKey [some 27, some 97] = some (Key.Escape, 2) :=
  (claim_C7_bare_escape [] 97).2 (by decide) (by decide)

/-- Claim C1 counterexample: on the unmapped extended sequence
ESC-bracket-9-tilde followed by the byte a, the decoder returns a bare Escape
event after 4 read attempts; it does not silently drop the sequence and
decode the following byte (which would give the character event for a with
all 5 attempts consumed). -/
theorem claim_C1_counterexample :
    readKey [some 27, some 91, some 57, some 126, some 97] = some (Key.Escape, 4) ∧
    readKey [some 27, some 91, some 57, some 126, some 97] ≠ some (Key.Char 97, 5) := by
  decide

/-- Claim C1 as amended: for an accumulated number outside the mapped set
(the digits 0 and 9) and for a malformed terminator, the decoder returns a
bare Escape event (not nothing) after 4 read attempts, leaving later bytes
for the next call. -/
theorem claim_C1_amended :
    ∀ (d t : Nat) (rest : List (Option Nat)), 48 ≤ d → d ≤ 57 →
      ((d ≠ 49 ∧ d ≠ 51 ∧ d ≠ 52 ∧ d ≠ 53 ∧ d ≠ 54 ∧ d ≠ 55 ∧ d ≠ 56) →
        readKey (some 27 :: some 91 :: some d :: some 126 :: rest)
          = some (Key.Escape, 4)) ∧
      (t ≠ 126 →
        readKey (some 27 :: some 91 :: some d :: some t :: rest)
          = some (Key.Escape, 4)) := by
  intro d t rest h1 h2
  have e1 : d ≠ 65 := by omega
  have e2 : d ≠ 66 := by omega
  have e3 : d ≠ 67 := by omega
  have e4 : d ≠ 68 := by omega
  have e5 : d ≠ 72 := by omega
  have e6 : d ≠ 70 := by omega
  constructor
  · rintro ⟨n1, n2, n3, n4, n5, n6, n7⟩
    simp [readKey, readKeyAfter, escBracket, escDigit, h1, h2,
      e1, e2, e3, e4, e5, e6, n1, n2, n3, n4, n5, n6, n7]
  · intro ht
    simp [readKey, readKeyAfter, escBracket, escDigit, h1, h2,
      e1, e2, e3, e4, e5, e6, ht]

/-- Witness for C1 at the digit 0 with tilde, and at the digit 0 with a
malformed terminator. -/
theorem claim_C1_amended_witness :
    readKey [some 27, some 91, some 48, some 126] = some (Key.Escape, 4) ∧
    readKey [some 27, some 91, some 48, some 97] = some (Key.Escape, 4) :=
  ⟨(claim_C1_amended 48 97 [] (by decide) (by decide)).1 (by decide),
   (claim_C1_amended 48 97 [] (by decide) (by decide)).2 (by decide)⟩

/-- Claim C2 counterexample: the decoder does not accumulate several digits:
on ESC-bracket-1-7-tilde it stops at the second digit and returns a bare
Escape event with only 4 read attempts consumed, so the tilde terminator is
never read and no accumulated number 17 is ever mapped. -/
theorem claim_C2_counterexample :
    readKey [some 27, some 91, some 49, some 55, some 126] = some (Key.Escape, 4) ∧
    readKey [some 27, some 91, some 49, some 55, some 126] ≠ some (Key.Home, 5) ∧
    readKey [some 27, some 91, some 49, some 55, some 126] ≠ some (Key.Escape, 5) := by
  decide

/-- Claim C2 as amended: the decoder reads exactly one digit; when the byte
right after that digit is the tilde, the single digit is mapped (1 and 7 to
Home, 3 to Delete, 4 and 8 to End, 5 to PageUp, 6 to PageDown); when that
byte is a second digit the sequence yields a bare Escape event after 4 read
attempts, the rest of the stream left unread. -/
theorem claim_C2_amended :
    ∀ (rest : List (Option Nat)) (d1 d2 : Nat),
      readKey (some 27 :: some 91 :: some 49 :: some 126 :: rest) = some (Key.Home, 4) ∧
      readKey (some 27 :: some 91 :: some 51 :: some 126 :: rest) = some (Key.Delete, 4) ∧
      readKey (some 27 :: some 91 :: some 52 :: some 126 :: rest) = some (Key.End, 4) ∧
      readKey (some 27 :: some 91 :: some 53 :: some 126 :: rest) = some (Key.PageUp, 4) ∧
      readKey (some 27 :: some 91 :: some 54 :: some 126 :: rest) = some (Key.PageDown, 4) ∧
      readKey (some 27 :: some 91 :: some 55 :: some 126 :: rest) = some (Key.Home, 4) ∧
      readKey (some 27 :: some 91 :: some 56 :: some 126 :: rest) = some (Key.End, 4) ∧
      (48 ≤ d1 → d1 ≤ 57 → 48 ≤ d2 → d2 ≤ 57 →
        readKey (some 27 :: some 91 :: some d1 :: some d2 :: rest)
          = some (Key.Escape, 4)) := by
  intro rest d1 d2
  refine ⟨rfl, rfl, rfl, rfl, rfl, rfl, rfl, fun h1 h2 h3 h4 => ?_⟩
  have ht : d2 ≠ 126 := by omega
  have e1 : d1 ≠ 65 := by omega
  have e2 : d1 ≠ 66 := by omega
  have e3 : d1 ≠ 67 := by omega
  have e4 : d1 ≠ 68 := by omega
  have e5 : d1 ≠ 72 := by omega
  have e6 : d1 ≠ 70 := by omega
  simp [readKey, readKeyAfter, escBracket, escDigit, h1, h2,
    e1, e2, e3, e4, e5, e6, ht]

/-- Witness for C2 at the two-digit sequence ESC-bracket-1-7. -/
theorem claim_C2_amended_witness :
    readKey [some 27, some 91, some 49, some 55] = some (Key.Escape, 4) :=
  (claim_C2_amended [] 49 55).2.2.2.2.2.2.2 (by decide) (by decide) (by decide) (by decide)

/-- Claim C3 counterexample: when the ioctl succeeds with the degenerate
winsize 0 by 0, `get_window_size` returns it unchanged instead of falling
back to the probe (which here would report 24 by 80). -/
theorem claim_C3_counterexample :
    get_window_size (some (0, 0)) (Except.ok (24, 80)) = Except.ok (0, 0) ∧
    get_window_size (some (0, 0)) (Except.ok (24, 80)) ≠ Except.ok (24, 80) := by
  refine ⟨rfl, fun h => ?_⟩
  rw [show get_window_size (some (0, 0)) (Except.ok (24, 80))
      = (Except.ok (0, 0) : Except CprError (Nat × Nat)) from rfl] at h
  exact absurd (congrArg Prod.fst (Except.ok.inj h)) (by decide)

/-- Claim C3 as amended: `get_window_size` returns whatever values a
successful ioctl reports, with no positivity check, and falls back to the
cursor-position probe exactly when the ioctl fails. -/
theorem claim_C3_amended :
    (∀ (r c : Nat) (probe : Except CprError (Nat × Nat)),
      get_window_size (some (r, c)) probe = Except.ok (r, c)) ∧
    (∀ probe : Except CprError (Nat × Nat), get_window_size none probe = probe) :=
  ⟨fun _ _ _ => rfl, fun _ => rfl⟩

/-- Claim C4 counterexample: the streaming parser of src/os.rs accepts the
response with the non-numeric field x y (the malformed response of the spec)
and returns Ok with the garbage geometry 793 by 80 instead of failing. -/
theorem claim_C4_counterexample :
    os_get_cursor_position [27, 91, 120, 121, 59, 56, 48, 82] = Except.ok (793, 80) ∧
    (os_get_cursor_position [27, 91, 120, 121, 59, 56, 48, 82]).isOk = true :=
  ⟨rfl, rfl⟩

/-- Claim C4 as amended: the buffer-based parser of src/main.rs behaves as
the claim states on the cited responses (well-formed report parsed, missing
separator, non-numeric field, missing header, too-short and too-long
responses rejected), but the streaming parser of src/os.rs checks only the
two header bytes: it errors on a missing header or a missing separator, yet
folds arbitrary non-digit bytes into the numeric fields and succeeds. -/
theorem claim_C4_amended :
    main_get_cursor_position [27, 91, 50, 52, 59, 56, 48, 82] = Except.ok (24, 80) ∧
    main_get_cursor_position [27, 91, 56, 48, 82] = Except.error CprError.protocol ∧
    main_get_cursor_position [27, 91, 120, 121, 59, 56, 48, 82]
      = Except.error CprError.protocol ∧
    main_get_cursor_position [91, 27, 50, 52, 59, 56, 48, 82]
      = Except.error CprError.protocol ∧
    main_get_cursor_position [27, 91, 82] = Except.error CprError.protocol ∧
    main_get_cursor_position
        [27, 91, 49, 49, 49, 49, 49, 49, 49, 49, 49, 49, 49, 49]
      = Except.error CprError.protocol ∧
    os_get_cursor_position [27, 91, 50, 52, 59, 56, 48, 82] = Except.ok (24, 80) ∧
    os_get_cursor_position [91, 27, 50, 52, 59, 56, 48, 82] = Except.error () ∧
    os_get_cursor_position [27, 91, 56, 48, 82] = Except.error () ∧
    os_get_cursor_position [27, 91, 120, 121, 59, 56, 48, 82] = Except.ok (793, 80) :=
  ⟨rfl, rfl, rfl, rfl, rfl, rfl, rfl, rfl, rfl, rfl⟩

/-- Claim C5: the frame built by begin, hide cursor, move to row 1 column 1,
append a tilde, erase line, show cursor reaches the sink at the end call as
exactly one write whose payload is the concatenation of those sequences in
append order; and in general the end call flushes everything accumulated
since the last begin as one write in append order. -/
theorem claim_C5_compositor_framing :
    ∀ (t : Terminal) (sink : List String) (ops : List TermOp),
      Terminal.endFrame
          ((((((t.begin).hide_cursor).move_cursor_at 1 1).push_str "~").erase_in_line).show_cursor)
          sink
        = sink ++ ["\x1b[?25l\x1b[1;1H~\x1b[K\x1b[?25h"] ∧
      ((∀ op ∈ ops, op ≠ TermOp.beginOp) →
        Terminal.endFrame (applyOps ops t.begin) sink = sink ++ [payloads ops]) := by
  intro t sink ops
  constructor
  · rfl
  · intro h
    show sink ++ [(applyOps ops t.begin).buf] = sink ++ [payloads ops]
    rw [applyOps_buf ops t.begin h]
    exact congrArg (fun s => sink ++ [s]) (empty_append (payloads ops))

/-- Witness for C5: the concrete frame of the claim rendered through the
operation list, with an initially dirty buffer. -/
theorem claim_C5_compositor_framing_witness :
    Terminal.endFrame
        (applyOps
          [TermOp.hideCursor, TermOp.moveCursorAt 1 1, TermOp.pushStr "~",
            TermOp.eraseInLine, TermOp.showCursor]
          (Terminal.begin
            { orig :=
                { c_iflag := 0, c_oflag := 0, c_cflag := 0, c_lflag := 0,
                  c_cc_vmin := 0, c_cc_vtime := 0 },
              buf := "stale" }))
        []
      = ["\x1b[?25l\x1b[1;1H~\x1b[K\x1b[?25h"] :=
  (claim_C5_compositor_framing
      { orig :=
          { c_iflag := 0, c_oflag := 0, c_cflag := 0, c_lflag := 0,
            c_cc_vmin := 0, c_cc_vtime := 0 },
        buf := "stale" }
      [] [TermOp.hideCursor, TermOp.moveCursorAt 1 1, TermOp.pushStr "~",
        TermOp.eraseInLine, TermOp.showCursor]).2 (by decide)

/-- Claim C8: the teardown write is byte-for-byte the snapshot captured at
construction: whatever session operations run in between, the stored
snapshot is never mutated and the Drop impl writes exactly it back. -/
theorem claim_C8_restore_exact_snapshot :
    ∀ (orig : Termios) (ops : List TermOp),
      (applyOps ops (Terminal.new_raw_mode orig).1).orig = orig ∧
      Terminal.dropRestore (applyOps ops (Terminal.new_raw_mode orig).1) = orig := by
  intro orig ops
  have h := applyOps_orig ops (Terminal.new_raw_mode orig).1
  exact ⟨h, h⟩

/-- Claim C9 counterexample: a short write (1 of 2 bytes transferred) makes
the write primitive of src/os.rs report success even though the buffer was
not completely written and no retry happens. -/
theorem claim_C9_counterexample :
    unixWrite [97, 98] 1 = Except.ok () ∧
    writtenBytes [97, 98] 1 = [97] ∧
    writtenBytes [97, 98] 1 ≠ [97, 98] := by
  refine ⟨rfl, rfl, by decide⟩

/-- Claim C9 as amended: the write primitive issues exactly one OS write call
and reports success for every result other than -1, regardless of how many
bytes were actually transferred; only the -1 result is a DeviceError, and
short writes are not retried (the bytes delivered are just the transferred
front of the buffer). -/
theorem claim_C9_amended :
    ∀ (buf : List Nat) (res : Int),
      (res ≠ -1 → unixWrite buf res = Except.ok ()) ∧
      unixWrite buf (-1) = Except.error () ∧
      writtenBytes buf res = (if res < 0 then [] else buf.take res.toNat) := by
  intro buf res
  exact ⟨fun h => if_neg h, if_pos rfl, rfl⟩

/-- Witness for C9 at a zero-length transfer result. -/
theorem claim_C9_amended_witness :
    unixWrite [97, 98] 0 = Except.ok () :=
  (claim_C9_amended [97, 98] 0).1 (by decide)

/-- Claim C10: the decoder produces an event only after consuming at least
one byte: a trace of only timeouts yields no event however long it is; any
returned event has a byte among the consumed read attempts; and once a byte
arrives (after any stretch of timeouts) the decoder returns within at most
three further read attempts. -/
theorem claim_C10_read_key_progress :
    ∀ (n : Nat) (s : List (Option Nat)) (k : Key) (m : Nat)
      (p : List (Option Nat)) (b : Nat) (rest : List (Option Nat)),
      readKey (List.replicate n none) = none ∧
      (readKey s = some (k, m) → ∃ i, i < m ∧ ∃ c, s.get? i = some (some c)) ∧
      ((∀ x ∈ p, x = none) → 3 ≤ rest.length →
        (readKey (p ++ some b :: rest)).isSome = true) := by
  intro n s k m p b rest
  refine ⟨?_, readKey_some_consumes s k m, readKey_isSome_append p b rest⟩
  induction n with
  | zero => rfl
  | succ n ih => simp [List.replicate_succ, readKey, ih]

/-- Witness for C10: the single byte a is decoded after one read attempt, and
a byte after one timeout gives a result within the bound. -/
theorem claim_C10_read_key_progress_witness :
    (∃ i, i < 1 ∧ ∃ c, ([some 97] : List (Option Nat)).get? i = some (some c)) ∧
    (readKey ([none] ++ some 98 :: [none, none, none])).isSome = true :=
  ⟨(claim_C10_read_key_progress 0 [some 97] (Key.Char 97) 1 [none] 98
      [none, none, none]).2.1 (by decide),
   (claim_C10_read_key_progress 0 [some 97] (Key.Char 97) 1 [none] 98
      [none, none, none]).2.2 (by decide) (by decide)⟩

end Kilo
